import Mathlib

/-!
Shallow embedding of nvFuser's alias analysis (`csrc/alias_analysis.cpp`) and
of the `DeviceMesh` value object (`csrc/multidevice/device_mesh.h`).

Dimensions ("IterDomain") have referential identity in the C++ IR; here they
carry a numeric identifier, and all maps keyed by dimensions compare that
whole structure, which plays the role of pointer identity.  Tensors
("TensorView") carry the domain sequences and flags the analysis reads.
External oracles (the producer/consumer dimension correspondence and the
dependency query detecting resized, i.e. sliced, dimensions) are carried as
fields of each operation node, mirroring the external-interface contract.
-/

namespace NvFuser

/-- A logical axis of a tensor, with identity (`uid`), a kind
(normal / reduction / broadcast) and an optional expanded extent flag. -/
structure IterDomain where
  uid : Nat
  isReduction : Bool
  isBroadcast : Bool
  hasExpandedExtent : Bool
deriving DecidableEq, Repr

instance : Inhabited IterDomain := ⟨⟨0, false, false, false⟩⟩

/-- A tensor: root domain, rfactor domain (`getMaybeRFactorDomain`), the
explicitly set allocation domain (`none` when unset), the contiguity flags,
and the fusion input/output markers. -/
structure TensorView where
  tvName : Nat
  root : List IterDomain
  rfactor : List IterDomain
  allocation : Option (List IterDomain)
  contiguity : List (Option Bool)
  isFusionInput : Bool
  isFusionOutput : Bool
deriving DecidableEq, Repr

/-- `TensorView::getMaybeAllocationDomain`: the allocation domain when set,
otherwise the rfactor domain. -/
def TensorView.getMaybeAllocationDomain (tv : TensorView) : List IterDomain :=
  tv.allocation.getD tv.rfactor

/-- `TensorView::getAllocationDomain`: the explicitly set allocation domain,
empty when unset. -/
def TensorView.getAllocationDomain (tv : TensorView) : List IterDomain :=
  tv.allocation.getD []

/-- A physical layout: an ordered allocation domain and, in parallel,
tri-state contiguity flags. -/
structure Layout where
  allocation_domain : List IterDomain
  contiguity : List (Option Bool)
deriving DecidableEq, Repr

/-- `len(allocation_domain) == len(contiguity)`, the Layout invariant. -/
def Layout.sizesMatch (l : Layout) : Prop :=
  l.allocation_domain.length = l.contiguity.length

/-- `contiguityIsCompliant` from `alias_analysis.cpp`: a contiguous actual
satisfies a non-contiguous requirement; everything else must match exactly. -/
def contiguityIsCompliant (actual required : Option Bool) : Bool :=
  if actual = some true ∧ required = some false then true
  else actual = required

/-- `Layout::isCompliantWith` from `alias_analysis.cpp`. -/
def Layout.isCompliantWith (l required : Layout) : Bool :=
  if required.allocation_domain = [] then true
  else if l.allocation_domain ≠ required.allocation_domain then false
  else (List.range l.allocation_domain.length).all fun i =>
    contiguityIsCompliant (l.contiguity.getD i none) (required.contiguity.getD i none)

/-- `splitContiguity` from `alias_analysis.cpp`: the contiguity of the outer
and inner outputs of a `Split`. -/
def splitContiguity (contiguity : Option Bool) : Option Bool × Option Bool :=
  match contiguity with
  | none => (none, none)
  | some c => if c then (some true, some true) else (some true, some false)

/-- `mergeContiguity` from `alias_analysis.cpp`: whether a `Merge` keeps the
output an alias, and the merged contiguity. -/
def mergeContiguity (outer_id : IterDomain) (outer_contiguity : Option Bool)
    (inner_id : IterDomain) (inner_contiguity : Option Bool) :
    Bool × Option Bool :=
  if outer_contiguity = none ∧ outer_id.hasExpandedExtent = false then
    (true, inner_contiguity)
  else if inner_contiguity = none ∧ inner_id.hasExpandedExtent = false then
    (true, outer_contiguity)
  else if outer_id.hasExpandedExtent ∧ inner_id.hasExpandedExtent then
    (true, none)
  else if outer_id.hasExpandedExtent ∨ inner_id.hasExpandedExtent then
    (false, none)
  else if outer_contiguity = some true then
    (true, inner_contiguity)
  else
    (false, none)

/-- The case table of claim C1, read sequentially, over the expanded-extent
flags of the two dimensions and the two contiguity values. -/
def mergeContiguityTable (outer_exp : Bool) (outer_c : Option Bool)
    (inner_exp : Bool) (inner_c : Option Bool) : Bool × Option Bool :=
  if outer_c = none ∧ outer_exp = false then (true, inner_c)
  else if inner_c = none ∧ inner_exp = false then (true, outer_c)
  else if outer_exp ∧ inner_exp then (true, none)
  else if outer_exp ∨ inner_exp then (false, none)
  else if outer_c = some true then (true, inner_c)
  else (false, none)

/-- Association-list lookup keyed by dimension identity, the model of the
`std::unordered_map` lookups. -/
def lookupId (m : List (IterDomain × IterDomain)) (k : IterDomain) :
    Option IterDomain :=
  (m.find? fun p => decide (p.1 = k)).map (·.2)

/-- `map_or_identity` from the view rule: apply the map when the key is
present, otherwise return the key itself. -/
def mapOrIdentity (m : List (IterDomain × IterDomain)) (k : IterDomain) :
    IterDomain :=
  (lookupId m k).getD k

/-- The model of the loops that call `std::unordered_map::at` on each element:
`none` as soon as one lookup fails (`at` throws on a missing key). -/
def mapAt {α β : Type} (f : α → Option β) : List α → Option (List β)
  | [] => some []
  | x :: xs =>
    match f x, mapAt f xs with
    | some y, some ys => some (y :: ys)
    | _, _ => none

/-- Multiset-equality check behind `ir_utils::computePermutation`: whether the
second list is a permutation of the first. -/
def isPermOf : List IterDomain → List IterDomain → Bool
  | [], ys => ys.isEmpty
  | x :: xs, ys => ys.contains x && isPermOf xs (ys.erase x)

/-- `ir_utils::computePermutation(from, to)`: the positions of `to`'s elements
inside `from` when `to` is a permutation of `from`, otherwise `none`.  The
alias rules only inspect `has_value()`. -/
def computePermutation (xs ys : List IterDomain) : Option (List Nat) :=
  if isPermOf xs ys then some (ys.map fun y => xs.indexOf y) else none

/-- The accumulated analysis state: `alias_to_source_` (alias ↦ source and
required layout) and `out_to_root_` (output ↦ transitive root), both as
association lists in which the head shadows later entries, modelling
`std::unordered_map` writes. -/
structure AliasAnalysisResult where
  alias_to_source : List (TensorView × TensorView × Layout)
  out_to_root : List (TensorView × TensorView)
deriving DecidableEq, Repr

/-- Lookup into an `alias_to_source_`-shaped association list. -/
def lookupAliasList (m : List (TensorView × TensorView × Layout))
    (tv : TensorView) : Option (TensorView × Layout) :=
  (m.find? fun p => decide (p.1 = tv)).map (·.2)

/-- Lookup into `alias_to_source_`. -/
def AliasAnalysisResult.lookupAlias (a : AliasAnalysisResult)
    (tv : TensorView) : Option (TensorView × Layout) :=
  lookupAliasList a.alias_to_source tv

/-- `AliasAnalysisResult::add`: `emplace` into `alias_to_source_`, a fatal
error (`NVF_ERROR(inserted, ...)`) whenever the alias key is already
present. -/
def AliasAnalysisResult.add (a : AliasAnalysisResult)
    (alias_tv source : TensorView) (layout : Layout) :
    Except String AliasAnalysisResult :=
  match a.lookupAlias alias_tv with
  | some _ => .error "two sources for an alias"
  | none =>
    .ok { a with alias_to_source := (alias_tv, source, layout) :: a.alias_to_source }

/-- Whether an `Except` result is a success. -/
def isOkResult {α : Type} : Except String α → Bool
  | .ok _ => true
  | .error _ => false

/-- Decidable equality of fallible results, used to state concrete
evaluations of the handlers. -/
instance {ε α : Type} [DecidableEq ε] [DecidableEq α] :
    DecidableEq (Except ε α) := fun x y =>
  match x, y with
  | .ok a, .ok b =>
    if h : a = b then .isTrue (by rw [h])
    else .isFalse (by intro hc; cases hc; exact h rfl)
  | .error e, .error e' =>
    if h : e = e' then .isTrue (by rw [h])
    else .isFalse (by intro hc; cases hc; exact h rfl)
  | .ok _, .error _ => .isFalse (by intro hc; cases hc)
  | .error _, .ok _ => .isFalse (by intro hc; cases hc)

/-- `AliasAnalysisResult::preferredLayout`: the stored required layout when
the tensor is a registered alias, else the tensor's maybe-allocation domain
and contiguity. -/
def AliasAnalysisResult.preferredLayout (a : AliasAnalysisResult)
    (tv : TensorView) : Layout :=
  match a.lookupAlias tv with
  | some (_, l) => l
  | none => ⟨tv.getMaybeAllocationDomain, tv.contiguity⟩

/-- The fueled chain walk behind `AliasAnalysisResult::findNearestAliasedIo`.
The C++ do-while always performs at least one lookup; it terminates on every
acyclic `alias_to_source_` map after at most as many lookups as the map has
entries, which the fuel argument makes explicit (on a cyclic map the C++
would not terminate; the model returns `none` when fuel runs out). -/
def findNearestAliasedIoGo (m : List (TensorView × TensorView × Layout)) :
    Nat → TensorView → Option TensorView
  | 0, _ => none
  | fuel + 1, root =>
    match lookupAliasList m root with
    | none => none
    | some (src, _) =>
      if src.isFusionInput || src.isFusionOutput then some src
      else findNearestAliasedIoGo m fuel src

/-- `AliasAnalysisResult::findNearestAliasedIo`: follow `alias_to_source_`
from `fusion_out` until reaching null (no entry) or a fusion input/output. -/
def AliasAnalysisResult.findNearestAliasedIo (a : AliasAnalysisResult)
    (fusion_out : TensorView) : Option TensorView :=
  findNearestAliasedIoGo a.alias_to_source (a.alias_to_source.length + 1)
    fusion_out

/-- Lookup into an `out_to_root_`-shaped association list. -/
def lookupOTR (m : List (TensorView × TensorView)) (tv : TensorView) :
    Option TensorView :=
  (m.find? fun p => decide (p.1 = tv)).map (·.2)

/-- `AliasAnalysisResult::getNearestAliasedIo`: the O(1) lookup into the
finalized `out_to_root_` map. -/
def AliasAnalysisResult.getNearestAliasedIo (a : AliasAnalysisResult)
    (fusion_out : TensorView) : Option TensorView :=
  lookupOTR a.out_to_root fusion_out

/-- `okToRelayout` from `alias_analysis.cpp`: compliance of the proposed
layout against `getAllocationDomain` (raw, possibly empty) when the override
flag is set, else against `getMaybeAllocationDomain`. -/
def okToRelayout (out : TensorView) (new_layout : Layout)
    (can_override_empty_allocation_domain : Bool) : Bool :=
  let out_allocation :=
    if can_override_empty_allocation_domain then out.getAllocationDomain
    else out.getMaybeAllocationDomain
  new_layout.isCompliantWith ⟨out_allocation, out.contiguity⟩

/-- The fusion graph, reduced to what `finalize` reads: its output list. -/
structure Fusion where
  outputs : List TensorView
deriving DecidableEq, Repr

/-- One iteration of the `finalize` loop for a single output. -/
def finalizeStep (a : AliasAnalysisResult) (can_override : Bool)
    (otr : List (TensorView × TensorView)) (out : TensorView) :
    List (TensorView × TensorView) :=
  match a.findNearestAliasedIo out with
  | none => otr
  | some root =>
    if okToRelayout out (a.preferredLayout out) can_override then
      (out, root) :: otr
    else otr

/-- `AliasAnalysisResult::finalize`: for every fusion output with a transitive
alias root whose preferred layout passes `okToRelayout`, record the
output/root pair in `out_to_root_`. -/
def AliasAnalysisResult.finalize (a : AliasAnalysisResult) (fusion : Fusion)
    (can_override : Bool) : AliasAnalysisResult :=
  { a with out_to_root := fusion.outputs.foldl (finalizeStep a can_override) a.out_to_root }

/-- Modelled from the spec: the ordered allocation-to-contiguity structure of
the view rule (`linked_hash_map.h` is not under `src/`) is an ordered
associative sequence with identity-keyed insert/erase/lookup that preserves
relative order.  `lhmErase` removes the entry for a key and returns its mapped
contiguity, its position (the position the C++ erase's returned iterator
points at), and the remaining sequence; `none` when the key is missing, which
the handlers treat as a fatal error. -/
def lhmErase : List (IterDomain × Option Bool) → IterDomain →
    Option (Option Bool × Nat × List (IterDomain × Option Bool))
  | [], _ => none
  | (k, v) :: rest, key =>
    if k = key then some (v, 0, rest)
    else
      match lhmErase rest key with
      | none => none
      | some (c, i, rest') => some (c, i + 1, (k, v) :: rest')

/-- Modelled from the spec: insertion before the given position of the
ordered allocation-to-contiguity structure. -/
def lhmInsertAt : List (IterDomain × Option Bool) → Nat → IterDomain →
    Option Bool → List (IterDomain × Option Bool)
  | m, 0, k, v => (k, v) :: m
  | [], _ + 1, k, v => [(k, v)]
  | p :: rest, i + 1, k, v => p :: lhmInsertAt rest i k v

/-- A root→rfactor transformation of a view, as returned by the dependency
oracle: a `Split` of one dimension into outer and inner, or a `Merge` of an
outer and an inner dimension. -/
inductive ViewTransform where
  | split (inId outer inner : IterDomain)
  | merge (outer inner outId : IterDomain)
deriving DecidableEq, Repr

/-- Outcome of replaying the view transforms: the final ordered allocation
map, a soft abandon (non-adjacent or non-mergeable merge), or a fatal
error. -/
inductive ReplayOutcome where
  | ok (m : List (IterDomain × Option Bool))
  | abandon
  | fatal
deriving DecidableEq, Repr

/-- One replay step of the view rule: thread the contiguity flags through a
`Split` via `splitContiguity` or through a `Merge` via `mergeContiguity`,
abandoning when the merge operands are not adjacent in allocation order or
when the merge is not mergeable. -/
def replayStep (out_root_to_in_rfactor : List (IterDomain × IterDomain))
    (m : List (IterDomain × Option Bool)) : ViewTransform → ReplayOutcome
  | .split inId outer inner =>
    let key := mapOrIdentity out_root_to_in_rfactor inId
    match lhmErase m key with
    | none => .fatal
    | some (c, i, m') =>
      let (outer_c, inner_c) := splitContiguity c
      .ok (lhmInsertAt (lhmInsertAt m' i outer outer_c) (i + 1) inner inner_c)
  | .merge outer inner outId =>
    let merge_outer := mapOrIdentity out_root_to_in_rfactor outer
    let merge_inner := mapOrIdentity out_root_to_in_rfactor inner
    match lhmErase m merge_outer with
    | none => .fatal
    | some (outer_c, i, m') =>
      match m'[i]? with
      | none => .abandon
      | some (k, _) =>
        if k ≠ merge_inner then .abandon
        else
          match lhmErase m' merge_inner with
          | none => .fatal
          | some (inner_c, j, m'') =>
            let (mergeable, c) :=
              mergeContiguity merge_outer outer_c merge_inner inner_c
            if mergeable then .ok (lhmInsertAt m'' j outId c) else .abandon

/-- Replay of all view transforms in dependency order, propagating abandon
and fatal outcomes. -/
def replayTransforms (out_root_to_in_rfactor : List (IterDomain × IterDomain)) :
    List ViewTransform → List (IterDomain × Option Bool) → ReplayOutcome
  | [], m => .ok m
  | t :: ts, m =>
    match replayStep out_root_to_in_rfactor m t with
    | .ok m' => replayTransforms out_root_to_in_rfactor ts m'
    | r => r

/-- The initial ordered allocation-to-contiguity sequence of the view rule:
the input's preferred allocation order paired with its contiguity, reduction
dimensions skipped. -/
def buildAllocToContig (l : Layout) : List (IterDomain × Option Bool) :=
  (l.allocation_domain.zip l.contiguity).filter fun p => !p.1.isReduction

/-- The output layout of the view rule: the final ordered allocation
sequence, its keys pushed through `in_rfactor_to_out_root` (identity on
unmapped keys), with the threaded contiguity flags. -/
def lhmToLayout (in_rfactor_to_out_root : List (IterDomain × IterDomain))
    (m : List (IterDomain × Option Bool)) : Layout :=
  ⟨m.map fun p => mapOrIdentity in_rfactor_to_out_root p.1, m.map (·.2)⟩

/-- A `ViewOp` node together with the oracles the rule consumes: the
producer→consumer and consumer→producer dimension correspondences and the
root→rfactor transforms of the output. -/
structure ViewOp where
  inTv : TensorView
  outTv : TensorView
  in_rfactor_to_out_root : List (IterDomain × IterDomain)
  out_root_to_in_rfactor : List (IterDomain × IterDomain)
  transforms : List ViewTransform
deriving DecidableEq, Repr

/-- `AliasFinder::handle(const ViewOp*)`: soft-refuse when the input's
rfactor domain is not a permutation of its preferred allocation domain or
when the replay abandons; otherwise register the replayed layout. -/
def handleView (v : ViewOp) (a : AliasAnalysisResult) :
    Except String AliasAnalysisResult :=
  let in_layout := a.preferredLayout v.inTv
  if (computePermutation v.inTv.rfactor in_layout.allocation_domain).isNone then
    .ok a
  else
    match replayTransforms v.out_root_to_in_rfactor v.transforms
        (buildAllocToContig in_layout) with
    | .abandon => .ok a
    | .fatal => .error "expect Split or Merge"
    | .ok m => a.add v.outTv v.inTv (lhmToLayout v.in_rfactor_to_out_root m)

/-- A permute-like `LoadStoreOp` node with its producer→consumer dimension
correspondence. -/
structure LoadStoreOp where
  inTv : TensorView
  outTv : TensorView
  in_rfactor_to_out_root : List (IterDomain × IterDomain)
deriving DecidableEq, Repr

/-- The output layout of the permute rule: the input's preferred allocation
order pushed through the producer→consumer map, reduction dimensions skipped,
contiguity unchanged; `none` when a map lookup (`at`) fails. -/
def permuteOutLayout (m : List (IterDomain × IterDomain)) (l : Layout) :
    Option Layout :=
  let pairs := (l.allocation_domain.zip l.contiguity).filter
    fun p => !p.1.isReduction
  (mapAt (fun p => lookupId m p.1) pairs).map
    fun dom => ⟨dom, pairs.map (·.2)⟩

/-- `AliasFinder::handle(const LoadStoreOp*)`. -/
def handleLoadStore (op : LoadStoreOp) (a : AliasAnalysisResult) :
    Except String AliasAnalysisResult :=
  let in_layout := a.preferredLayout op.inTv
  if (computePermutation op.inTv.rfactor in_layout.allocation_domain).isNone then
    .ok a
  else
    match permuteOutLayout op.in_rfactor_to_out_root in_layout with
    | none => .error "missing mapping"
    | some l => a.add op.outTv op.inTv l

/-- A `SliceOp` node with its producer→consumer dimension correspondence and
the dependency oracle's answer to "which output dimensions have a `Resize`
between the output root and them" (`slicedIds`). -/
structure SliceOp where
  inTv : TensorView
  outTv : TensorView
  in_rfactor_to_out_root : List (IterDomain × IterDomain)
  slicedIds : List IterDomain
deriving DecidableEq, Repr

/-- The output allocation domain of the slice rule: the input's preferred
allocation order, reductions skipped, pushed through producer→consumer and
then through the positional out-root→out-rfactor map; `none` when an `at`
lookup fails. -/
def sliceAllocDomain (op : SliceOp) (l : Layout) : Option (List IterDomain) :=
  let out_root_to_rfactor := op.outTv.root.zip op.outTv.rfactor
  mapAt
    (fun id => (lookupId op.in_rfactor_to_out_root id).bind
      fun r => lookupId out_root_to_rfactor r)
    (l.allocation_domain.filter fun id => !id.isReduction)

/-- The minor-to-major contiguity scan of the slice rule, the head of the
list being the major-most dimension.  Each element pairs an output allocation
dimension with the input contiguity at the same position; the flag returned
alongside is "the next non-broadcast dimension outward must be
non-contiguous". -/
def sliceScan (sliced : IterDomain → Bool) :
    List (IterDomain × Option Bool) → List (Option Bool) × Bool
  | [] => ([], false)
  | (id, inC) :: rest =>
    let r := sliceScan sliced rest
    let c : Option Bool :=
      if id.isBroadcast then none
      else if r.2 then some false
      else inC
    (c :: r.1, sliced id || (id.isBroadcast && r.2))

/-- The contiguity scan as claim C4 words it: only a sliced *non-broadcast*
dimension raises the flag, and broadcast dimensions always pass the flag
through unchanged. -/
def sliceScanClaim (sliced : IterDomain → Bool) :
    List (IterDomain × Option Bool) → List (Option Bool) × Bool
  | [] => ([], false)
  | (id, inC) :: rest =>
    let r := sliceScanClaim sliced rest
    if id.isBroadcast then (none :: r.1, r.2)
    else ((if r.2 then some false else inC) :: r.1, sliced id)

/-- The contiguity scan as the amended claim words it: a sliced dimension —
broadcast or not — raises the flag; an unsliced broadcast dimension passes
the flag through unchanged; a non-broadcast dimension consumes the flag
(marking itself non-contiguous) and afterwards holds the flag exactly when it
is itself sliced. -/
def sliceScanAmended (sliced : IterDomain → Bool) :
    List (IterDomain × Option Bool) → List (Option Bool) × Bool
  | [] => ([], false)
  | (id, inC) :: rest =>
    let r := sliceScanAmended sliced rest
    if id.isBroadcast then (none :: r.1, r.2 || sliced id)
    else ((if r.2 then some false else inC) :: r.1, sliced id)

/-- The pairs fed to the slice contiguity scan: position `i` (up to the
output rank) pairs the output allocation dimension at `i` with the input
layout's contiguity at `i`, exactly the indexing of the C++ loop. -/
def sliceScanInput (alloc : List IterDomain) (in_contiguity : List (Option Bool))
    (out_rank : Nat) : List (IterDomain × Option Bool) :=
  (List.range out_rank).map fun i =>
    (alloc.getD i default, in_contiguity.getD i none)

/-- `AliasFinder::handle(const SliceOp*)`. -/
def handleSlice (op : SliceOp) (a : AliasAnalysisResult) :
    Except String AliasAnalysisResult :=
  let in_layout := a.preferredLayout op.inTv
  if (computePermutation op.inTv.rfactor in_layout.allocation_domain).isNone then
    .ok a
  else
    match sliceAllocDomain op in_layout with
    | none => .error "missing mapping"
    | some alloc =>
      let out_rank := op.outTv.rfactor.length
      let contig := (sliceScan (fun id => op.slicedIds.contains id)
        (sliceScanInput alloc in_layout.contiguity out_rank)).1
      a.add op.outTv op.inTv ⟨alloc, contig⟩

/-- A `BroadcastOp` node: the producer→consumer dimension correspondence and
the per-output-position broadcast flags (`isBroadcastDim`). -/
structure BroadcastOp where
  inTv : TensorView
  outTv : TensorView
  in_rfactor_to_out_root : List (IterDomain × IterDomain)
  isBroadcastDim : List Bool
deriving DecidableEq, Repr

/-- The output layout of the broadcast rule: the mapped input layout followed
by the newly introduced broadcast dimensions, each with "not applicable"
contiguity. -/
def broadcastOutLayout (op : BroadcastOp) (l : Layout) : Option Layout :=
  (permuteOutLayout op.in_rfactor_to_out_root l).map fun base =>
    let extra := ((op.outTv.rfactor.zip op.isBroadcastDim).filter (·.2)).map (·.1)
    ⟨base.allocation_domain ++ extra, base.contiguity ++ extra.map fun _ => none⟩

/-- `AliasFinder::handle(const BroadcastOp*)`. -/
def handleBroadcast (op : BroadcastOp) (a : AliasAnalysisResult) :
    Except String AliasAnalysisResult :=
  let in_layout := a.preferredLayout op.inTv
  if (computePermutation op.inTv.rfactor in_layout.allocation_domain).isNone then
    .ok a
  else
    match broadcastOutLayout op in_layout with
    | none => .error "missing mapping"
    | some l => a.add op.outTv op.inTv l

/-- A `SqueezeOp` node with its producer→consumer dimension correspondence. -/
structure SqueezeOp where
  inTv : TensorView
  outTv : TensorView
  in_rfactor_to_out_root : List (IterDomain × IterDomain)
deriving DecidableEq, Repr

/-- The output layout of the squeeze rule: dimensions without a mapping (the
squeezed-out ones) are dropped; the rest keep their contiguity. -/
def squeezeOutLayout (m : List (IterDomain × IterDomain)) (l : Layout) : Layout :=
  let pairs := (l.allocation_domain.zip l.contiguity).filterMap fun p =>
    (lookupId m p.1).map fun mapped => (mapped, p.2)
  ⟨pairs.map (·.1), pairs.map (·.2)⟩

/-- `AliasFinder::handle(const SqueezeOp*)`. -/
def handleSqueeze (op : SqueezeOp) (a : AliasAnalysisResult) :
    Except String AliasAnalysisResult :=
  let in_layout := a.preferredLayout op.inTv
  if (computePermutation op.inTv.rfactor in_layout.allocation_domain).isNone then
    .ok a
  else
    a.add op.outTv op.inTv (squeezeOutLayout op.in_rfactor_to_out_root in_layout)

/-- Whether a list has two equal adjacent elements: exactly the condition
under which `std::unique(begin, end) != end` in `DeviceMesh::setDevices`. -/
def hasAdjacentDup : List Int → Bool
  | [] => false
  | [_] => false
  | a :: b :: rest => a == b || hasAdjacentDup (b :: rest)

/-- `DeviceMesh::setDevices`: stores the device list and raises
`NVF_ERROR("device mesh has duplicates")` when `std::unique` found adjacent
duplicates. -/
def DeviceMesh.setDevices (devices : List Int) : Except String (List Int) :=
  if hasAdjacentDup devices then .error "device mesh has duplicates"
  else .ok devices

/-- The value `finalize` records for a given output, when it records one:
the transitive root, provided one exists and `okToRelayout` passes. -/
def finalizeWrites (a : AliasAnalysisResult) (flag : Bool)
    (out : TensorView) : Option TensorView :=
  match a.findNearestAliasedIo out with
  | none => none
  | some root =>
    if okToRelayout out (a.preferredLayout out) flag then some root else none

/- Concrete dimensions and tensors used to instantiate theorems. -/

/-- A normal dimension. -/
def dim0 : IterDomain := ⟨1, false, false, false⟩

/-- A normal dimension. -/
def dim1 : IterDomain := ⟨2, false, false, false⟩

/-- A normal dimension. -/
def dim2 : IterDomain := ⟨3, false, false, false⟩

/-- An expanded broadcast dimension. -/
def dimExp0 : IterDomain := ⟨4, false, true, true⟩

/-- An expanded broadcast dimension. -/
def dimExp1 : IterDomain := ⟨5, false, true, true⟩

/-- An empty analysis state. -/
def emptyAnalysis : AliasAnalysisResult := ⟨[], []⟩

/-- A concrete layout over `[dim0, dim1]`, fully contiguous. -/
def layoutD01 : Layout := ⟨[dim0, dim1], [some true, some true]⟩

/-- A fusion input tensor over `[dim0, dim1]`. -/
def tvIn : TensorView :=
  ⟨100, [dim0, dim1], [dim0, dim1], none, [some true, some true], true, false⟩

/-- An intermediate (neither input nor output) tensor over `[dim0, dim1]`. -/
def tvMid : TensorView :=
  ⟨101, [dim0, dim1], [dim0, dim1], none, [some true, some true], false, false⟩

/-- A second intermediate tensor over `[dim0, dim1]`. -/
def tvMid2 : TensorView :=
  ⟨102, [dim0, dim1], [dim0, dim1], none, [some true, some true], false, false⟩

/-- A third intermediate tensor over `[dim0, dim1]`. -/
def tvMid3 : TensorView :=
  ⟨103, [dim0, dim1], [dim0, dim1], none, [some true, some true], false, false⟩

/-- A fusion output tensor over `[dim0, dim1]` with no explicitly set
allocation domain. -/
def tvOut : TensorView :=
  ⟨104, [dim0, dim1], [dim0, dim1], none, [some true, some true], false, true⟩

/-- An analysis in which `tvMid` is already registered as an alias of
`tvIn`. -/
def analysisMid : AliasAnalysisResult := ⟨[(tvMid, tvIn, layoutD01)], []⟩

/-- An analysis holding the chain `tvMid2 → tvMid3 → tvMid` of intermediate
tensors: the chain dead-ends at `tvMid`, which has no further source and is
neither a fusion input nor a fusion output. -/
def analysisChainDeadEnd : AliasAnalysisResult :=
  ⟨[(tvMid2, tvMid3, layoutD01), (tvMid3, tvMid, layoutD01)], []⟩

/-- An analysis holding the compliant chain `tvOut → tvMid → tvIn`: the
intermediate `tvMid` is not observable, the chain ends at the fusion input
`tvIn`. -/
def analysisChainToInput : AliasAnalysisResult :=
  ⟨[(tvOut, tvMid, layoutD01), (tvMid, tvIn, layoutD01)], []⟩

/-- The preferred layout `finalize` checks for `tvOut` in the
counterexample to claim C2: the transposed allocation order. -/
def layoutD10 : Layout := ⟨[dim1, dim0], [some true, some true]⟩

/-- An analysis registering the fusion output `tvOut` as an alias of `tvIn`
under the transposed layout `layoutD10`. -/
def analysisTransposedOut : AliasAnalysisResult := ⟨[(tvOut, tvIn, layoutD10)], []⟩

/-- A fusion whose only output is `tvOut`. -/
def fusionOut : Fusion := ⟨[tvOut]⟩

/-- A tensor whose explicitly set allocation domain `[dim0]` is not a
permutation of its rfactor domain `[dim0, dim1]`: every rule soft-refuses on
it. -/
def tvBadPerm : TensorView :=
  ⟨105, [dim0, dim1], [dim0, dim1], some [dim0], [some true], true, false⟩

/- Dimensions of the view-rule examples. -/

/-- Root dimension of the view output mapped to `dim0`. -/
def rv0 : IterDomain := ⟨20, false, false, false⟩

/-- Root dimension of the view output mapped to `dim1`. -/
def rv1 : IterDomain := ⟨21, false, false, false⟩

/-- Root dimension of the view output mapped to `dim2`. -/
def rv2 : IterDomain := ⟨22, false, false, false⟩

/-- The merged output dimension of the view example. -/
def rvM : IterDomain := ⟨23, false, false, false⟩

/-- A 3-D input tensor for the view example whose preferred allocation order
`[dim0, dim2, dim1]` makes `dim0` and `dim1` non-adjacent. -/
def tvViewIn : TensorView :=
  ⟨106, [dim0, dim1, dim2], [dim0, dim1, dim2], some [dim0, dim2, dim1],
    [some true, some true, some true], true, false⟩

/-- The output tensor of the view example. -/
def tvViewOut : TensorView :=
  ⟨107, [rv0, rv1, rv2], [rvM, rv2], none, [some true, some true], false, false⟩

/-- A view that merges `rv0` and `rv1`, whose producer images `dim0` and
`dim1` are not adjacent in `tvViewIn`'s allocation order. -/
def viewNonAdjacent : ViewOp :=
  ⟨tvViewIn, tvViewOut,
    [(dim0, rv0), (dim1, rv1), (dim2, rv2)],
    [(rv0, dim0), (rv1, dim1), (rv2, dim2)],
    [.merge rv0 rv1 rvM]⟩

/- Concrete data of the slice examples. -/

/-- A broadcast (non-expanded) dimension of the sliced-broadcast input. -/
def bIn : IterDomain := ⟨30, false, true, false⟩

/-- Output root image of `dim0` in the sliced-broadcast example. -/
def o0 : IterDomain := ⟨31, false, false, false⟩

/-- Output root image of the broadcast dimension. -/
def bRoot : IterDomain := ⟨32, false, true, false⟩

/-- The resized (sliced) broadcast dimension in the output rfactor domain. -/
def bSliced : IterDomain := ⟨33, false, true, false⟩

/-- The 2-D input `[dim0, bIn]` of the sliced-broadcast example. -/
def tvSliceBIn : TensorView :=
  ⟨108, [dim0, bIn], [dim0, bIn], none, [some true, none], true, false⟩

/-- The output of slicing the broadcast dimension: root `[o0, bRoot]`,
rfactor `[o0, bSliced]`. -/
def tvSliceBOut : TensorView :=
  ⟨109, [o0, bRoot], [o0, bSliced], none, [some true, none], false, true⟩

/-- The slice of the broadcast dimension: only `bSliced` has a `Resize` in
its dependency chain. -/
def sliceBroadcastOp : SliceOp :=
  ⟨tvSliceBIn, tvSliceBOut, [(dim0, o0), (bIn, bRoot)], [bSliced]⟩

/-- Output root dimensions of the 3-D slice example. -/
def s0 : IterDomain := ⟨40, false, false, false⟩

/-- Output root dimension mapped to `dim1`. -/
def s1 : IterDomain := ⟨41, false, false, false⟩

/-- Output root dimension mapped to `dim2`. -/
def s2 : IterDomain := ⟨42, false, false, false⟩

/-- The resized image of `s2`: the minor-most dimension is sliced to a
strict subrange. -/
def s2Sliced : IterDomain := ⟨43, false, false, false⟩

/-- The fully contiguous 3-D input `[dim0, dim1, dim2]` of the slice
example, allocation order `[d0, d1, d2]`. -/
def tvSlice3In : TensorView :=
  ⟨110, [dim0, dim1, dim2], [dim0, dim1, dim2], none,
    [some true, some true, some true], true, false⟩

/-- The output of slicing only `dim2`: root `[s0, s1, s2]`, rfactor
`[s0, s1, s2Sliced]`. -/
def tvSlice3Out : TensorView :=
  ⟨111, [s0, s1, s2], [s0, s1, s2Sliced], none,
    [some true, some true, some true], false, true⟩

/-- The slice of the minor-most dimension of the 3-D example. -/
def slice3Op : SliceOp :=
  ⟨tvSlice3In, tvSlice3Out, [(dim0, s0), (dim1, s1), (dim2, s2)], [s2Sliced]⟩

/-- A new broadcast dimension introduced by the broadcast example. -/
def bNew : IterDomain := ⟨50, false, true, false⟩

/-- The output of broadcasting `tvIn` with one new trailing broadcast
dimension. -/
def tvBroadOut : TensorView :=
  ⟨112, [rv0, rv1, bNew], [rv0, rv1, bNew], none,
    [some true, some true, none], false, true⟩

/-- The broadcast of `tvIn` adding `bNew` at the last output position. -/
def broadOpW : BroadcastOp :=
  ⟨tvIn, tvBroadOut, [(dim0, rv0), (dim1, rv1)], [false, false, true]⟩

end NvFuser

namespace NvFuser

/-- Claim C1: `mergeContiguity` implements exactly the documented case table —
an unknown-contiguity, non-expanded side merges transparently and inherits the
other side's contiguity; two expanded dimensions merge to an unknown one;
exactly one expanded dimension is not mergeable; otherwise a contiguous outer
inherits the inner contiguity and a non-contiguous outer is not mergeable. -/
theorem mergeContiguity_implements_table (outer_id inner_id : IterDomain)
    (outer_c inner_c : Option Bool) :
    mergeContiguity outer_id outer_c inner_id inner_c =
      mergeContiguityTable outer_id.hasExpandedExtent outer_c
        inner_id.hasExpandedExtent inner_c := by
  unfold mergeContiguity mergeContiguityTable
  rcases outer_c with _ | b <;> rcases inner_c with _ | c <;>
    cases h₁ : outer_id.hasExpandedExtent <;>
    cases h₂ : inner_id.hasExpandedExtent <;> simp [h₁, h₂]

/- Helper lemmas shared between the claim theorems. -/

theorem findNearestGo_none (m : List (TensorView × TensorView × Layout))
    (fuel : Nat) (root : TensorView) (h : lookupAliasList m root = none) :
    findNearestAliasedIoGo m (fuel + 1) root = none := by
  simp [findNearestAliasedIoGo, h]

theorem findNearestGo_io (m : List (TensorView × TensorView × Layout))
    (fuel : Nat) (root src : TensorView) (l : Layout)
    (h : lookupAliasList m root = some (src, l))
    (hio : (src.isFusionInput || src.isFusionOutput) = true) :
    findNearestAliasedIoGo m (fuel + 1) root = some src := by
  simp [findNearestAliasedIoGo, h, hio]

theorem findNearestGo_mid (m : List (TensorView × TensorView × Layout))
    (fuel : Nat) (root src : TensorView) (l : Layout)
    (h : lookupAliasList m root = some (src, l))
    (hi : src.isFusionInput = false) (ho : src.isFusionOutput = false) :
    findNearestAliasedIoGo m (fuel + 1) root = findNearestAliasedIoGo m fuel src := by
  simp [findNearestAliasedIoGo, h, hi, ho]

theorem finalizeStep_eq (a : AliasAnalysisResult) (flag : Bool)
    (acc : List (TensorView × TensorView)) (out : TensorView) :
    finalizeStep a flag acc out =
      match finalizeWrites a flag out with
      | none => acc
      | some root => (out, root) :: acc := by
  unfold finalizeStep finalizeWrites
  cases a.findNearestAliasedIo out with
  | none => rfl
  | some root =>
    by_cases h : okToRelayout out (a.preferredLayout out) flag = true <;> simp [h]

theorem finalize_fold_lookup (a : AliasAnalysisResult) (flag : Bool)
    (outs : List TensorView) (acc : List (TensorView × TensorView))
    (t : TensorView) :
    lookupOTR (outs.foldl (finalizeStep a flag) acc) t =
      if t ∈ outs ∧ (finalizeWrites a flag t).isSome then finalizeWrites a flag t
      else lookupOTR acc t := by
  induction outs generalizing acc with
  | nil => simp
  | cons o rest ih =>
    rw [List.foldl_cons, ih]
    by_cases h1 : t ∈ rest ∧ (finalizeWrites a flag t).isSome
    · rw [if_pos h1, if_pos ⟨List.mem_cons_of_mem o h1.1, h1.2⟩]
    · rw [if_neg h1]
      by_cases h2 : t = o
      · subst h2
        rw [finalizeStep_eq]
        cases hw : finalizeWrites a flag t with
        | none => simp [hw]
        | some root =>
          rw [if_pos ⟨List.mem_cons_self t rest, by simp⟩]
          simp [lookupOTR]
      · rw [finalizeStep_eq]
        have hcond : ¬(t ∈ o :: rest ∧ (finalizeWrites a flag t).isSome) := by
          intro hc
          rcases List.mem_cons.mp hc.1 with he | hm
          · exact h2 he
          · exact h1 ⟨hm, hc.2⟩
        rw [if_neg hcond]
        have h2' : ¬o = t := fun he => h2 he.symm
        cases hw : finalizeWrites a flag o with
        | none => rfl
        | some root => simp [lookupOTR, List.find?_cons, h2']

theorem mapAt_length {α β : Type} (f : α → Option β) (l : List α)
    (ys : List β) (h : mapAt f l = some ys) : ys.length = l.length := by
  induction l generalizing ys with
  | nil => simp [mapAt] at h; simp [← h]
  | cons x xs ih =>
    unfold mapAt at h
    cases hf : f x with
    | none => rw [hf] at h; simp at h
    | some y =>
      rw [hf] at h
      cases hm : mapAt f xs with
      | none => rw [hm] at h; simp at h
      | some zs =>
        rw [hm] at h
        simp at h
        rw [← h]
        simp [ih zs hm]

theorem sliceScan_length (sliced : IterDomain → Bool)
    (l : List (IterDomain × Option Bool)) :
    (sliceScan sliced l).1.length = l.length := by
  induction l with
  | nil => rfl
  | cons p rest ih => simp [sliceScan, ih]

/-- Counterexample to claim C7 as stated: quantified over every dimension
pair, the split-then-merge round trip fails when both dimensions have
expanded extents and the original contiguity is `true` — the merge yields
`(true, none)` rather than `(true, some true)`. -/
theorem split_merge_round_trip_fails_on_expanded :
    mergeContiguity dimExp0 (splitContiguity (some true)).1 dimExp1
      (splitContiguity (some true)).2 ≠ (true, some true) := by
  decide

/-- Claim C7, amended: when neither dimension of the pair has an expanded
extent, merging back the two children produced by `splitContiguity c`
yields `(mergeable = true, c)` for every contiguity value `c`. -/
theorem split_merge_round_trip (outer_id inner_id : IterDomain)
    (c : Option Bool) (ho : outer_id.hasExpandedExtent = false)
    (hi : inner_id.hasExpandedExtent = false) :
    mergeContiguity outer_id (splitContiguity c).1 inner_id
      (splitContiguity c).2 = (true, c) := by
  rcases c with _ | b
  · simp [splitContiguity, mergeContiguity, ho, hi]
  · cases b <;> simp [splitContiguity, mergeContiguity, ho, hi]

/-- Witness for the amended claim C7, at two ordinary dimensions and a
non-contiguous original. -/
theorem split_merge_round_trip_witness :
    mergeContiguity dim0 (splitContiguity (some false)).1 dim1
      (splitContiguity (some false)).2 = (true, some false) :=
  split_merge_round_trip dim0 dim1 (some false) (by decide) (by decide)

/-- Claim C9 meets a code bug: `DeviceMesh::setDevices` checks
`std::unique`, which only detects *adjacent* duplicates, so the duplicated
device list `[0, 1, 0]` is accepted and stored unchanged instead of raising
the fatal "device mesh has duplicates" error its own message promises. -/
theorem deviceMesh_accepts_nonadjacent_duplicate :
    DeviceMesh.setDevices [0, 1, 0] = .ok [0, 1, 0] ∧
      ¬([0, 1, 0] : List Int).Nodup := by
  decide

/-- Counterexample to claim C3 as stated: `add` raises the fatal error even
when the alias is re-registered with the *same* source (`emplace` fails on
any present key), whereas the claim allows an error only for a different
source. -/
theorem add_errors_even_on_same_source :
    analysisMid.lookupAlias tvMid = some (tvIn, layoutD01) ∧
      isOkResult (analysisMid.add tvMid tvIn layoutD01) = false := by
  decide

/-- Claim C3, amended: `add(alias, source, layout)` raises a fatal error if
and only if `alias` already has *any* registered source (even the same one);
otherwise it inserts the pair, and successful adds keep every alias mapped
to exactly one source. -/
theorem add_single_source (a : AliasAnalysisResult)
    (alias_tv source : TensorView) (layout : Layout) :
    isOkResult (a.add alias_tv source layout) = (a.lookupAlias alias_tv).isNone
    ∧ (∀ a', a.add alias_tv source layout = .ok a' →
        a'.alias_to_source = (alias_tv, source, layout) :: a.alias_to_source)
    ∧ ((a.alias_to_source.map (·.1)).Nodup →
        ∀ a', a.add alias_tv source layout = .ok a' →
          (a'.alias_to_source.map (·.1)).Nodup) := by
  cases h : a.lookupAlias alias_tv with
  | some v =>
    refine ⟨?_, fun a' ha' => ?_, fun _ a' ha' => ?_⟩ <;>
      simp [AliasAnalysisResult.add, h, isOkResult] at *
  | none =>
    refine ⟨?_, fun a' ha' => ?_, fun hnd a' ha' => ?_⟩
    · simp [AliasAnalysisResult.add, h, isOkResult]
    · simp only [AliasAnalysisResult.add, h] at ha'
      cases ha'
      rfl
    · simp only [AliasAnalysisResult.add, h] at ha'
      cases ha'
      have hfind : a.alias_to_source.find? (fun p => decide (p.1 = alias_tv)) = none := by
        have := h
        unfold AliasAnalysisResult.lookupAlias lookupAliasList at this
        exact Option.map_eq_none.mp this
      have hnotmem : alias_tv ∉ a.alias_to_source.map (·.1) := by
        intro hmem
        obtain ⟨p, hp, hp1⟩ := List.mem_map.mp hmem
        have := List.find?_eq_none.mp hfind p hp
        simp [hp1] at this
      rw [List.map_cons]
      exact List.nodup_cons.mpr ⟨hnotmem, hnd⟩

/-- Witness for the amended claim C3: a fresh add succeeds, records the
entry, and keeps the alias keys duplicate-free. -/
theorem add_single_source_witness :
    isOkResult (emptyAnalysis.add tvMid tvIn layoutD01) =
      (emptyAnalysis.lookupAlias tvMid).isNone
    ∧ analysisMid.alias_to_source =
        (tvMid, tvIn, layoutD01) :: emptyAnalysis.alias_to_source
    ∧ (analysisMid.alias_to_source.map (·.1)).Nodup := by
  have h := add_single_source emptyAnalysis tvMid tvIn layoutD01
  exact ⟨h.1, h.2.1 analysisMid (by decide), h.2.2 (by decide) analysisMid (by decide)⟩

/-- Claim C10: a tensor with no `alias_to_source` entry — fusion input or
output or not — has no transitive root: `findNearestAliasedIo` returns null
(in particular never the tensor itself), and `finalize` leaves
`out_to_root` unchanged for it. -/
theorem no_alias_entry_no_root (a : AliasAnalysisResult) (t : TensorView)
    (h : a.lookupAlias t = none) :
    a.findNearestAliasedIo t = none
    ∧ a.findNearestAliasedIo t ≠ some t
    ∧ ∀ (f : Fusion) (flag : Bool),
        (a.finalize f flag).getNearestAliasedIo t = a.getNearestAliasedIo t := by
  have h0 : a.findNearestAliasedIo t = none :=
    findNearestGo_none a.alias_to_source a.alias_to_source.length t h
  refine ⟨h0, by rw [h0]; simp, fun f flag => ?_⟩
  show lookupOTR (f.outputs.foldl (finalizeStep a flag) a.out_to_root) t =
    a.getNearestAliasedIo t
  rw [finalize_fold_lookup]
  have hw : finalizeWrites a flag t = none := by
    unfold finalizeWrites
    rw [h0]
  rw [hw]
  simp [AliasAnalysisResult.getNearestAliasedIo]

/-- Witness for claim C10 at the fusion input `tvIn`, absent from the
chain analysis. -/
theorem no_alias_entry_no_root_witness :
    analysisChainDeadEnd.findNearestAliasedIo tvIn = none
    ∧ analysisChainDeadEnd.findNearestAliasedIo tvIn ≠ some tvIn
    ∧ (analysisChainDeadEnd.finalize fusionOut true).getNearestAliasedIo tvIn =
        analysisChainDeadEnd.getNearestAliasedIo tvIn := by
  have h := no_alias_entry_no_root analysisChainDeadEnd tvIn (by decide)
  exact ⟨h.1, h.2.1, h.2.2 fusionOut true⟩

/-- Counterexample to claim C5 as stated: in the chain
`tvMid2 → tvMid3 → tvMid`, the intermediate `tvMid3` is neither input nor
output and the final `tvMid` has no further source, yet the chain walk
returns null rather than resolving to `tvMid` — the code stops at the first
*fusion input/output*, and a dead end at a non-observable tensor yields no
root at all. -/
theorem alias_chain_dead_end_returns_none :
    analysisChainDeadEnd.lookupAlias tvMid2 = some (tvMid3, layoutD01)
    ∧ analysisChainDeadEnd.lookupAlias tvMid3 = some (tvMid, layoutD01)
    ∧ tvMid3.isFusionInput = false ∧ tvMid3.isFusionOutput = false
    ∧ analysisChainDeadEnd.lookupAlias tvMid = none
    ∧ tvMid.isFusionInput = false ∧ tvMid.isFusionOutput = false
    ∧ analysisChainDeadEnd.findNearestAliasedIo tvMid2 = none := by
  decide

/-- Claim C5, amended: if A is registered as an alias of B and B of C, with
B neither a fusion input nor a fusion output and C a fusion input or output,
then the chain walk resolves A to C — never to the intermediate B — and,
after `finalize`, `getNearestAliasedIo` gives the same answer for an output
A whose preferred layout passes the compliance gate.  (When the chain instead
dead-ends at a tensor that is not a fusion input/output, the walk returns
null.) -/
theorem alias_chain_resolves_to_io (a : AliasAnalysisResult)
    (A B C : TensorView) (L1 L2 : Layout)
    (h1 : a.lookupAlias A = some (B, L1))
    (h2 : a.lookupAlias B = some (C, L2))
    (hBi : B.isFusionInput = false) (hBo : B.isFusionOutput = false)
    (hC : (C.isFusionInput || C.isFusionOutput) = true) :
    a.findNearestAliasedIo A = some C
    ∧ C ≠ B
    ∧ ∀ (f : Fusion) (flag : Bool), A ∈ f.outputs →
        okToRelayout A (a.preferredLayout A) flag = true →
        (a.finalize f flag).getNearestAliasedIo A = some C := by
  have hfind : a.findNearestAliasedIo A = some C := by
    obtain ⟨p, rest, hm⟩ : ∃ p rest, a.alias_to_source = p :: rest := by
      cases hm : a.alias_to_source with
      | nil =>
        rw [AliasAnalysisResult.lookupAlias, hm] at h1
        simp [lookupAliasList] at h1
      | cons p rest => exact ⟨p, rest, rfl⟩
    have h1' : lookupAliasList a.alias_to_source A = some (B, L1) := h1
    have h2' : lookupAliasList a.alias_to_source B = some (C, L2) := h2
    show findNearestAliasedIoGo a.alias_to_source (a.alias_to_source.length + 1)
      A = some C
    rw [hm] at h1' h2' ⊢
    rw [List.length_cons]
    rw [findNearestGo_mid (p :: rest) (rest.length + 1) A B L1 h1' hBi hBo]
    exact findNearestGo_io (p :: rest) rest.length B C L2 h2' hC
  refine ⟨hfind, ?_, fun f flag hmem hok => ?_⟩
  · intro he
    rw [he, hBi, hBo] at hC
    simp at hC
  · show lookupOTR (f.outputs.foldl (finalizeStep a flag) a.out_to_root) A =
      some C
    rw [finalize_fold_lookup]
    have hw : finalizeWrites a flag A = some C := by
      unfold finalizeWrites
      rw [hfind, hok]
      simp
    rw [if_pos ⟨hmem, by rw [hw]; rfl⟩, hw]

/-- Witness for the amended claim C5: the compliant chain
`tvOut → tvMid → tvIn` resolves the output `tvOut` to the fusion input
`tvIn`, both directly and through the finalized map. -/
theorem alias_chain_resolves_to_io_witness :
    analysisChainToInput.findNearestAliasedIo tvOut = some tvIn
    ∧ tvIn ≠ tvMid
    ∧ (analysisChainToInput.finalize fusionOut true).getNearestAliasedIo tvOut =
        some tvIn := by
  have h := alias_chain_resolves_to_io analysisChainToInput tvOut tvMid tvIn
    layoutD01 layoutD01 (by decide) (by decide) (by decide) (by decide) (by decide)
  exact ⟨h.1, h.2.1, h.2.2 fusionOut true (by decide) (by decide)⟩

/-- Counterexample to claim C2 as stated: with the override flag *true* and
an output whose allocation domain is unset, the code checks compliance
against the raw (empty) allocation domain — no constraint — and records the
output/root pair, even though the output's preferred layout is *not*
compliant with "its allocation domain or, if that is empty, its default
root-based domain", the target the claim prescribes for a true flag. -/
theorem finalize_enters_despite_noncompliant_claimed_target :
    (analysisTransposedOut.finalize fusionOut true).getNearestAliasedIo tvOut =
      some tvIn
    ∧ (analysisTransposedOut.preferredLayout tvOut).isCompliantWith
        ⟨tvOut.getMaybeAllocationDomain, tvOut.contiguity⟩ = false := by
  decide

/-- Claim C2, amended: for every graph output with a transitive alias root,
`finalize` enters the output/root pair into `out_to_root` iff the output's
preferred layout is compliant with the target layout, where the target is
the output's allocation domain or, if empty, its default root-based domain
(with its contiguity) when `allow_override_empty_allocation` is *false*, and
the output's explicitly set allocation domain — possibly empty, hence
unconstrained — when the flag is *true*; `alias_to_source` is untouched, so
a non-compliant candidate stays there while absent from `out_to_root`. -/
theorem finalize_gates_on_compliance (a : AliasAnalysisResult) (f : Fusion)
    (flag : Bool) (out root : TensorView)
    (hmem : out ∈ f.outputs)
    (hroot : a.findNearestAliasedIo out = some root)
    (hinit : a.out_to_root = []) :
    ((a.finalize f flag).getNearestAliasedIo out = some root ↔
      okToRelayout out (a.preferredLayout out) flag = true)
    ∧ (a.finalize f flag).alias_to_source = a.alias_to_source := by
  refine ⟨?_, rfl⟩
  show lookupOTR (f.outputs.foldl (finalizeStep a flag) a.out_to_root) out =
    some root ↔ okToRelayout out (a.preferredLayout out) flag = true
  rw [finalize_fold_lookup, hinit]
  by_cases hok : okToRelayout out (a.preferredLayout out) flag = true
  · have hw : finalizeWrites a flag out = some root := by
      unfold finalizeWrites
      rw [hroot, hok]
      simp
    rw [if_pos ⟨hmem, by rw [hw]; rfl⟩, hw]
    simp [hok]
  · have hw : finalizeWrites a flag out = none := by
      unfold finalizeWrites
      rw [hroot]
      simp [hok]
    rw [hw]
    simp [lookupOTR, hok]

/-- Witness for the amended claim C2 at the transposed-output example with
the override flag set. -/
theorem finalize_gates_on_compliance_witness :
    ((analysisTransposedOut.finalize fusionOut true).getNearestAliasedIo tvOut =
        some tvIn ↔
      okToRelayout tvOut (analysisTransposedOut.preferredLayout tvOut) true = true)
    ∧ (analysisTransposedOut.finalize fusionOut true).alias_to_source =
        analysisTransposedOut.alias_to_source :=
  finalize_gates_on_compliance analysisTransposedOut fusionOut true tvOut tvIn
    (by decide) (by decide) (by decide)

/-- Counterexample to claim C4 as stated: slicing the broadcast dimension of
`[dim0, bIn]` makes the code set the non-contiguity flag on the *sliced
broadcast* dimension (the source explicitly notes "A broadcast dimension can
be a slicing product as well"), producing contiguity `[false, n/a]`, while
the claim's scan — in which only a sliced non-broadcast dimension raises the
flag and broadcast dimensions pass it through unchanged — yields
`[true, n/a]`. -/
theorem slice_sliced_broadcast_diverges_from_claim :
    handleSlice sliceBroadcastOp emptyAnalysis =
      .ok ⟨[(tvSliceBOut, tvSliceBIn, ⟨[o0, bSliced], [some false, none]⟩)], []⟩
    ∧ (sliceScanClaim (fun id => [bSliced].contains id)
        (sliceScanInput [o0, bSliced] [some true, none] 2)).1 =
      [some true, none] := by
  decide

/-- Claim C4, amended: the slice rule's minor-to-major scan gives broadcast
dimensions "not applicable" contiguity; *any* sliced dimension — broadcast
or not — raises the pending flag, an unsliced broadcast dimension passes it
through unchanged, and the next non-broadcast dimension outward consumes it
by becoming non-contiguous; all other dimensions inherit the input
contiguity.  In particular, slicing only the minor-most dimension of a fully
contiguous 3-D tensor yields output contiguity `[true, false, true]`. -/
theorem slice_contiguity_scan (sliced : IterDomain → Bool)
    (l : List (IterDomain × Option Bool)) :
    sliceScan sliced l = sliceScanAmended sliced l
    ∧ handleSlice slice3Op emptyAnalysis =
        .ok ⟨[(tvSlice3Out, tvSlice3In,
          ⟨[s0, s1, s2Sliced], [some true, some false, some true]⟩)], []⟩ := by
  constructor
  · induction l with
    | nil => rfl
    | cons p rest ih =>
      rcases p with ⟨id, inC⟩
      by_cases hb : id.isBroadcast <;>
        simp [sliceScan, sliceScanAmended, ih, hb, Bool.or_comm]
  · decide

/-- Claim C6: every rule's soft refusal is atomic and non-fatal — when the
input's rfactor domain is not a permutation of its preferred allocation
domain (any rule), or when the view replay abandons because a merge's
operands are not adjacent in allocation order or the merge is not mergeable,
the handler returns success with the analysis state exactly unchanged and
registers nothing. -/
theorem rules_soft_refuse :
    (∀ (v : ViewOp) (a : AliasAnalysisResult),
      (computePermutation v.inTv.rfactor
          (a.preferredLayout v.inTv).allocation_domain = none
        ∨ replayTransforms v.out_root_to_in_rfactor v.transforms
            (buildAllocToContig (a.preferredLayout v.inTv)) = .abandon) →
      handleView v a = .ok a)
    ∧ (∀ (op : LoadStoreOp) (a : AliasAnalysisResult),
        computePermutation op.inTv.rfactor
          (a.preferredLayout op.inTv).allocation_domain = none →
        handleLoadStore op a = .ok a)
    ∧ (∀ (op : SliceOp) (a : AliasAnalysisResult),
        computePermutation op.inTv.rfactor
          (a.preferredLayout op.inTv).allocation_domain = none →
        handleSlice op a = .ok a)
    ∧ (∀ (op : BroadcastOp) (a : AliasAnalysisResult),
        computePermutation op.inTv.rfactor
          (a.preferredLayout op.inTv).allocation_domain = none →
        handleBroadcast op a = .ok a)
    ∧ (∀ (op : SqueezeOp) (a : AliasAnalysisResult),
        computePermutation op.inTv.rfactor
          (a.preferredLayout op.inTv).allocation_domain = none →
        handleSqueeze op a = .ok a) := by
  refine ⟨fun v a h => ?_, fun op a h => ?_, fun op a h => ?_,
    fun op a h => ?_, fun op a h => ?_⟩
  · rcases h with h | h
    · simp [handleView, h]
    · by_cases hp : (computePermutation v.inTv.rfactor
          (a.preferredLayout v.inTv).allocation_domain).isNone
      · simp [handleView, hp]
      · simp [handleView, hp, h]
  · simp [handleLoadStore, h]
  · simp [handleSlice, h]
  · simp [handleBroadcast, h]
  · simp [handleSqueeze, h]

/-- Witness for claim C6: the non-adjacent merge view and the
non-permutation input decline on every rule, each leaving the empty analysis
untouched. -/
theorem rules_soft_refuse_witness :
    handleView viewNonAdjacent emptyAnalysis = .ok emptyAnalysis
    ∧ handleLoadStore ⟨tvBadPerm, tvOut, []⟩ emptyAnalysis = .ok emptyAnalysis
    ∧ handleSlice ⟨tvBadPerm, tvOut, [], []⟩ emptyAnalysis = .ok emptyAnalysis
    ∧ handleBroadcast ⟨tvBadPerm, tvOut, [], []⟩ emptyAnalysis = .ok emptyAnalysis
    ∧ handleSqueeze ⟨tvBadPerm, tvOut, []⟩ emptyAnalysis = .ok emptyAnalysis := by
  have h := rules_soft_refuse
  exact ⟨h.1 viewNonAdjacent emptyAnalysis (Or.inr (by decide)),
    h.2.1 _ _ (by decide), h.2.2.1 _ _ (by decide),
    h.2.2.2.1 _ _ (by decide), h.2.2.2.2 _ _ (by decide)⟩

/-- Claim C8: every layout the analysis produces has allocation domain and
contiguity sequences of equal length — the layout `preferredLayout` returns
(given well-formed stored layouts and tensors), the view rule's replayed
layout, the permute rule's mapped layout, the broadcast rule's extended
layout, the squeeze rule's filtered layout, and the slice rule's layout
(whose allocation domain, reductions skipped, has the output rank). -/
theorem produced_layouts_sizes_match :
    (∀ (a : AliasAnalysisResult) (tv : TensorView),
      (∀ p ∈ a.alias_to_source, (p.2.2).sizesMatch) →
      tv.getMaybeAllocationDomain.length = tv.contiguity.length →
      (a.preferredLayout tv).sizesMatch)
    ∧ (∀ (m : List (IterDomain × IterDomain))
        (l : List (IterDomain × Option Bool)), (lhmToLayout m l).sizesMatch)
    ∧ (∀ (m : List (IterDomain × IterDomain)) (l out : Layout),
        permuteOutLayout m l = some out → out.sizesMatch)
    ∧ (∀ (op : BroadcastOp) (l out : Layout),
        broadcastOutLayout op l = some out → out.sizesMatch)
    ∧ (∀ (m : List (IterDomain × IterDomain)) (l : Layout),
        (squeezeOutLayout m l).sizesMatch)
    ∧ (∀ (op : SliceOp) (l : Layout) (alloc : List IterDomain),
        sliceAllocDomain op l = some alloc →
        alloc.length = op.outTv.rfactor.length →
        (Layout.mk alloc
          (sliceScan (fun id => op.slicedIds.contains id)
            (sliceScanInput alloc l.contiguity op.outTv.rfactor.length)).1).sizesMatch) := by
  refine ⟨fun a tv hinv htv => ?_, fun m l => ?_, fun m l out h => ?_,
    fun op l out h => ?_, fun m l => ?_, fun op l alloc _ hlen => ?_⟩
  · unfold AliasAnalysisResult.preferredLayout
    cases hf : a.lookupAlias tv with
    | none => exact htv
    | some v =>
      unfold AliasAnalysisResult.lookupAlias lookupAliasList at hf
      cases hfind : a.alias_to_source.find? (fun p => decide (p.1 = tv)) with
      | none => rw [hfind] at hf; simp at hf
      | some p =>
        rw [hfind] at hf
        simp at hf
        have hmem := List.mem_of_find?_eq_some hfind
        have := hinv p hmem
        rw [hf] at this
        exact this
  · simp [lhmToLayout, Layout.sizesMatch]
  · simp only [permuteOutLayout] at h
    cases hm : mapAt (fun p => lookupId m p.1)
        ((l.allocation_domain.zip l.contiguity).filter fun p => !p.1.isReduction) with
    | none => rw [hm] at h; simp at h
    | some dom =>
      rw [hm] at h
      simp at h
      rw [← h]
      simp [Layout.sizesMatch, mapAt_length _ _ _ hm]
  · unfold broadcastOutLayout at h
    cases hb : permuteOutLayout op.in_rfactor_to_out_root l with
    | none => rw [hb] at h; simp at h
    | some base =>
      rw [hb] at h
      simp at h
      simp only [permuteOutLayout] at hb
      cases hm : mapAt (fun p => lookupId op.in_rfactor_to_out_root p.1)
          ((l.allocation_domain.zip l.contiguity).filter fun p => !p.1.isReduction) with
      | none => rw [hm] at hb; simp at hb
      | some dom =>
        rw [hm] at hb
        simp at hb
        rw [← h, ← hb]
        simp [Layout.sizesMatch, mapAt_length _ _ _ hm]
  · simp [squeezeOutLayout, Layout.sizesMatch]
  · simp [Layout.sizesMatch, sliceScan_length, sliceScanInput, hlen]

/-- Witness for claim C8 at concrete layouts produced by each rule. -/
theorem produced_layouts_sizes_match_witness :
    (emptyAnalysis.preferredLayout tvIn).sizesMatch
    ∧ (lhmToLayout [(dim0, rv0)] [(dim0, some true)]).sizesMatch
    ∧ (Layout.mk [rv0, rv1] [some true, some true]).sizesMatch
    ∧ (Layout.mk [rv0, rv1, bNew] [some true, some true, none]).sizesMatch
    ∧ (squeezeOutLayout [(dim0, rv0)] layoutD01).sizesMatch
    ∧ (Layout.mk [s0, s1, s2Sliced]
        (sliceScan (fun id => slice3Op.slicedIds.contains id)
          (sliceScanInput [s0, s1, s2Sliced]
            (emptyAnalysis.preferredLayout tvSlice3In).contiguity
            slice3Op.outTv.rfactor.length)).1).sizesMatch := by
  have h := produced_layouts_sizes_match
  refine ⟨h.1 emptyAnalysis tvIn (by simp [emptyAnalysis]) (by decide),
    h.2.1 [(dim0, rv0)] [(dim0, some true)],
    h.2.2.1 [(dim0, rv0), (dim1, rv1)] layoutD01 ⟨[rv0, rv1], [some true, some true]⟩
      (by decide),
    h.2.2.2.1 broadOpW layoutD01 ⟨[rv0, rv1, bNew], [some true, some true, none]⟩
      (by decide),
    h.2.2.2.2.1 [(dim0, rv0)] layoutD01,
    h.2.2.2.2.2 slice3Op (emptyAnalysis.preferredLayout tvSlice3In)
      [s0, s1, s2Sliced] (by decide) (by decide)⟩

end NvFuser
